import Mathlib

/-!
Verification of the ParkLookup spatial-join and side-resolution engine.

Shallow embedding of the relevant parts of `src/backend/pipeline_blockface.py`,
`src/convert_geojson_with_regulations.py` and
`src/backend/transformers/parking_transformer.py`.  Python strings are
embedded as `String`/`List Char`, numeric computations over `ℚ`, dict-shaped
records as structures with `Option` fields, and calls into the external
Shapely library (interpolate/project/buffer/intersection/difference) as
explicit oracle parameters.
-/

namespace ParkLookup

/-! ## Python string primitives (embedded over `List Char`) -/

/-- ASCII lowercase of one character, as Python `str.lower` acts on the
ASCII range (the only range occurring in the datasets). -/
def lowerChar (c : Char) : Char :=
  if 'A' ≤ c ∧ c ≤ 'Z' then Char.ofNat (c.toNat + 32) else c

/-- ASCII uppercase of one character, as Python `str.upper` on ASCII. -/
def upperChar (c : Char) : Char :=
  if 'a' ≤ c ∧ c ≤ 'z' then Char.ofNat (c.toNat - 32) else c

def lowerL (l : List Char) : List Char := l.map lowerChar

def upperL (l : List Char) : List Char := l.map upperChar

def pyLower (s : String) : String := String.mk (lowerL s.data)

def pyUpper (s : String) : String := String.mk (upperL s.data)

/-- The whitespace characters removed by Python `str.strip()`. -/
def isSpaceC (c : Char) : Bool :=
  c = ' ' || c = '\t' || c = '\n' || c = '\r' || c = Char.ofNat 11 || c = Char.ofNat 12

/-- Python `str.strip()`. -/
def stripL (l : List Char) : List Char :=
  ((l.dropWhile isSpaceC).reverse.dropWhile isSpaceC).reverse

/-- Python substring containment, the `in` operator on `str`. -/
def containsL : List Char → List Char → Bool
  | s, pat =>
    if pat.isPrefixOf s then true
    else
      match s with
      | [] => false
      | _ :: rest => containsL rest pat

/-- Worker for `splitL`; the fuel is an upper bound on the number of steps,
each step consumes at least one character when the separator is nonempty. -/
def splitAux (sep : List Char) : Nat → List Char → List Char → List (List Char)
  | 0, s, acc => [acc.reverse ++ s]
  | fuel + 1, s, acc =>
    match s with
    | [] => [acc.reverse]
    | c :: rest =>
      if sep.isPrefixOf (c :: rest) then
        acc.reverse :: splitAux sep fuel ((c :: rest).drop sep.length) []
      else
        splitAux sep fuel rest (c :: acc)

/-- Python `s.split(sep)` for a nonempty separator (all uses in the source
pass nonempty literal separators). -/
def splitL (s sep : List Char) : List (List Char) := splitAux sep s.length s []

/-- Worker for `splitWs`. -/
def splitWsAux : List Char → List Char → List (List Char)
  | [], acc => if acc.isEmpty then [] else [acc.reverse]
  | c :: rest, acc =>
    if isSpaceC c then
      if acc.isEmpty then splitWsAux rest []
      else acc.reverse :: splitWsAux rest []
    else splitWsAux rest (c :: acc)

/-- Python no-argument `str.split()`: split on whitespace runs, dropping
empty tokens. -/
def splitWs (s : List Char) : List (List Char) := splitWsAux s []

/-- Python `str.replace(old, new)` for one-character `old`/`new` (the only
shape used by the source: `days_str.replace("/", " ")`). -/
def replaceChar (s : List Char) (old new : Char) : List Char :=
  s.map fun c => if c = old then new else c

/-- Python `str.zfill(n)` on unsigned digit strings (the source applies it
to the numeric clock fields only). -/
def zfill (s : List Char) (n : Nat) : List Char :=
  List.replicate (n - s.length) '0' ++ s

def isDigitC (c : Char) : Bool := '0' ≤ c && c ≤ '9'

/-- Python `int()` on a digit string (the source applies it to slices of the
already-padded numeric clock fields). -/
def digitsToNat (l : List Char) : Nat :=
  l.foldl (fun acc c => acc * 10 + (c.toNat - 48)) 0

/-- Python `f"{n:02d}"` formatting for a natural number. -/
def fmt02 (n : Nat) : List Char :=
  let d := Nat.toDigits 10 n
  if d.length < 2 then '0' :: d else d

/-! ## Side parsing (`parse_side_from_popupinfo`, both converters) -/

/-- `parse_side_from_popupinfo` of `src/backend/pipeline_blockface.py`
(lines 105-133): extracts an explicit cardinal side from the popup text. -/
def parse_side_from_popupinfo (popupinfo : String) : String :=
  if popupinfo.data.isEmpty then "UNKNOWN"
  else
    let lower := lowerL popupinfo.data
    if containsL lower ("north side").data then "NORTH"
    else if containsL lower ("south side").data then "SOUTH"
    else if containsL lower ("east side").data then "EAST"
    else if containsL lower ("west side").data then "WEST"
    else "UNKNOWN"

namespace CG

/-- `parse_side_from_popupinfo` of `src/convert_geojson_with_regulations.py`
(lines 32-53): maps west/east to the EVEN/ODD address-parity convention. -/
def parse_side_from_popupinfo (popupinfo : String) : String :=
  if popupinfo.data.isEmpty then "UNKNOWN"
  else
    let lower := lowerL popupinfo.data
    if containsL lower ("west side").data then "EVEN"
    else if containsL lower ("east side").data then "ODD"
    else if containsL lower ("north side").data then "NORTH"
    else if containsL lower ("south side").data then "SOUTH"
    else "UNKNOWN"

end CG

/-- Result record of `parse_street_info`. -/
structure StreetInfo where
  street : String
  fromStreet : String
  toStreet : String
deriving DecidableEq, Repr

/-- `parse_street_info` of `src/backend/pipeline_blockface.py` (lines
136-174); `src/convert_geojson_with_regulations.py` contains the
character-identical function. -/
def parse_street_info (popupinfo : String) : StreetInfo :=
  if popupinfo.data.isEmpty then ⟨"Unknown Street", "Unknown", "Unknown"⟩
  else
    let p := popupinfo.data
    let fallback : StreetInfo :=
      if containsL p (",").data then
        ⟨String.mk (stripL ((splitL p (",").data).headD [])), "Unknown", "Unknown"⟩
      else ⟨String.mk (stripL p), "Unknown", "Unknown"⟩
    if containsL p (" between ").data && containsL p (" and ").data then
      let parts := splitL p (" between ").data
      if parts.length = 2 then
        let street := stripL (parts.headD [])
        let rest0 := parts.getD 1 []
        let rest := if containsL rest0 (", ").data then (splitL rest0 (", ").data).headD [] else rest0
        if containsL rest (" and ").data then
          let ft := splitL rest (" and ").data
          if ft.length = 2 then
            ⟨String.mk street, String.mk (stripL (ft.headD [])), String.mk (stripL (ft.getD 1 []))⟩
          else fallback
        else fallback
      else fallback
    else fallback

/-! ## Left/right side resolution -/

/-- `blockface_side_to_left_right` of `src/backend/pipeline_blockface.py`
(lines 653-674): ODD maps to LEFT, EVEN to RIGHT, everything else
(cardinal sides, UNKNOWN) to UNKNOWN. -/
def blockface_side_to_left_right (side : String) : String :=
  let su := pyUpper side
  if su = "ODD" then "LEFT"
  else if su = "EVEN" then "RIGHT"
  else "UNKNOWN"

/-- The side-compatibility test applied to one candidate blockface inside
the matching loop of `convert_with_regulations`
(`src/backend/pipeline_blockface.py` lines 876-884).  `regSide` is the value
`determine_side_of_line` would return for this candidate; the code only
computes it when the blockface has a determinate LEFT/RIGHT side.  Returns
`true` when the candidate is kept. -/
def keepCandidate (bfSide regSide : String) : Bool :=
  let lr := blockface_side_to_left_right bfSide
  if lr = "UNKNOWN" then true
  else if regSide ≠ "UNKNOWN" ∧ regSide ≠ lr then false
  else true

/-! ## Day and time normalization (`parse_days_to_array`, `parse_time_to_format`) -/

/-- The day-code table of `parse_days_to_array`
(`src/backend/pipeline_blockface.py` lines 209-217). -/
def dayMapLookup (code : List Char) : Option String :=
  if code = ("M").data then some "monday"
  else if code = ("TU").data then some "tuesday"
  else if code = ("W").data then some "wednesday"
  else if code = ("TH").data then some "thursday"
  else if code = ("F").data then some "friday"
  else if code = ("SA").data then some "saturday"
  else if code = ("SU").data then some "sunday"
  else none

/-- `parse_days_to_array` of `src/backend/pipeline_blockface.py` (lines
187-225).  `none` models both a missing field and Python's `None` return. -/
def parse_days_to_array (daysStr : Option String) : Option (List String) :=
  match daysStr with
  | none => none
  | some s =>
    if s.data.isEmpty then none
    else
      let d := upperL (stripL s.data)
      if d = ("DAILY").data || d = ("M-SU").data then
        some ["monday", "tuesday", "wednesday", "thursday", "friday", "saturday", "sunday"]
      else if d = ("M-F").data then
        some ["monday", "tuesday", "wednesday", "thursday", "friday"]
      else if d = ("M-SA").data then
        some ["monday", "tuesday", "wednesday", "thursday", "friday", "saturday"]
      else
        let tokens := splitWs (replaceChar d '/' ' ')
        let days := tokens.filterMap dayMapLookup
        if days.isEmpty then none else some days

/-- `parse_time_to_format` of `src/backend/pipeline_blockface.py` (lines
228-259): pads 1-4 digit 24-hour clock strings and renders `HH:MM`,
mapping hour values of 24 and above to 00. -/
def parse_time_to_format (timeStr : Option String) : Option String :=
  match timeStr with
  | none => none
  | some s =>
    if s.data.isEmpty then none
    else
      let t0 := stripL s.data
      let t :=
        if t0.length ≤ 2 then zfill t0 2 ++ ("00").data
        else if t0.length = 3 then '0' :: t0
        else t0
      if t.length ≥ 4 then
        let hours0 := digitsToNat (t.take (t.length - 2))
        let minutes := digitsToNat (t.drop (t.length - 2))
        let hours := if hours0 ≥ 24 then 0 else hours0
        some (String.mk (fmt02 hours ++ (":").data ++ fmt02 minutes))
      else none

/-! ## Regulation-type mapping and extraction (`map_regulation_type`,
`extract_regulation`) -/

/-- `map_regulation_type` of `src/backend/pipeline_blockface.py` (lines
262-285): case-insensitive lookup of the stripped regulation text in the
type table, defaulting to "other". -/
def map_regulation_type (regulation : String) : String :=
  if regulation.data.isEmpty then "other"
  else
    let r := lowerL (stripL regulation.data)
    if r = ("time limited").data then "timeLimit"
    else if r = ("residential permit").data then "residentialPermit"
    else if r = ("no parking any time").data then "noParking"
    else if r = ("no parking anytime").data then "noParking"
    else if r = ("street cleaning").data then "streetCleaning"
    else if r = ("metered parking").data then "metered"
    else if r = ("pay or permit").data then "metered"
    else if r = ("tow-away zone").data then "towAway"
    else if r = ("tow away").data then "towAway"
    else if r = ("loading zone").data then "loadingZone"
    else if r = ("no oversized vehicles").data then "other"
    else "other"

/-- The GeoJSON properties of one parking-regulation record, as read by
`extract_regulation`.  `none` models a missing field or JSON null. -/
structure RegProps where
  regulation : Option String := none
  days : Option String := none
  hrs_begin : Option String := none
  hrs_end : Option String := none
  hrlimit : Option String := none
  rpparea1 : Option String := none
  rpparea2 : Option String := none
  rpparea3 : Option String := none
  exceptions : Option String := none
deriving DecidableEq, Repr

/-- The multi-valued permit-zone extraction loop of `extract_regulation`
(`src/backend/pipeline_blockface.py` lines 304-308): each of
`rpparea1..3` that is truthy and has nonempty strip contributes its
stripped value, in field order. -/
def extractPermitZones (p : RegProps) : List String :=
  ([p.rpparea1, p.rpparea2, p.rpparea3].filterMap id).filterMap fun z =>
    if (stripL z.data).isEmpty then none else some (String.mk (stripL z.data))

/-- Python `float()` restricted to plain decimal numerals (optional sign,
digits, optional fraction) — the only shapes the dataset's `hrlimit` field
can carry; any other string models the `ValueError` path as `none`.  The
value is returned exactly as a numerator/denominator pair with the
denominator the power of ten of the fractional part. -/
def parseDecimalParts (s : List Char) : Option (Int × Nat) :=
  let t := stripL s
  let sb : Int × List Char :=
    match t with
    | '+' :: rest => (1, rest)
    | '-' :: rest => (-1, rest)
    | _ => (1, t)
  match splitL sb.2 (".").data with
  | [intPart] =>
    if intPart ≠ [] ∧ intPart.all isDigitC then
      some (sb.1 * (digitsToNat intPart : Int), 1)
    else none
  | [intPart, fracPart] =>
    if (intPart ≠ [] ∨ fracPart ≠ []) ∧ intPart.all isDigitC ∧ fracPart.all isDigitC then
      some (sb.1 * ((digitsToNat intPart * 10 ^ fracPart.length + digitsToNat fracPart : Nat) : Int),
            10 ^ fracPart.length)
    else none
  | _ => none

/-- The `hrlimit` parsing of `extract_regulation`
(`src/backend/pipeline_blockface.py` lines 310-318): hours to minutes via
`int(float(hrlimit) * 60)`; `Int.tdiv` is Python's `int()` truncation toward
zero on the exact rational value; `none` for a missing/empty/unparseable
field. -/
def parseTimeLimit (hrlimit : Option String) : Option Int :=
  match hrlimit with
  | none => none
  | some s =>
    if s.data.isEmpty then none
    else
      match parseDecimalParts s.data with
      | none => none
      | some nd => some (Int.tdiv (nd.1 * 60) (nd.2 : Int))

/-- One extracted regulation entry, the dict built by `extract_regulation`
and its siblings.  `sourceStreet` embeds the internal `_sourceStreet`
backfill hint. -/
structure Regulation where
  type : String
  permitZone : Option String
  permitZones : Option (List String)
  timeLimit : Option Int
  meterRate : Option ℚ
  enforcementDays : Option (List String)
  enforcementStart : Option String
  enforcementEnd : Option String
  specialConditions : Option String
  sourceStreet : Option String
deriving DecidableEq, Repr

/-- `extract_regulation` of `src/backend/pipeline_blockface.py` (lines
288-395): expands "Pay or Permit" into metered + residentialPermit, a
time-limited record with permit zones into timeLimit + residentialPermit,
and everything else into a single entry. -/
def extract_regulation (p : RegProps) : List Regulation :=
  let raw := (p.regulation).getD ""
  let rtype := map_regulation_type raw
  let days := parse_days_to_array p.days
  let es := parse_time_to_format p.hrs_begin
  let ee := parse_time_to_format p.hrs_end
  let zones := extractPermitZones p
  let tl := parseTimeLimit p.hrlimit
  let ex := p.exceptions
  if lowerL raw.data = ("pay or permit").data then
    [⟨"metered", none, none, tl, none, days, es, ee, ex, none⟩,
     ⟨"residentialPermit", zones.head?, (if zones.isEmpty then none else some zones),
      none, none, days, es, ee, ex, none⟩]
  else if rtype = "timeLimit" ∧ zones ≠ [] then
    [⟨"timeLimit", none, none, tl, none, days, es, ee, ex, none⟩,
     ⟨"residentialPermit", zones.head?, (if zones.isEmpty then none else some zones),
      none, none, days, es, ee,
      (match ex with
       | some e => if e.data.isEmpty then some "Exempt from time limits"
                   else some ("Exempt from time limits. " ++ e)
       | none => some "Exempt from time limits"), none⟩]
  else
    [⟨rtype, zones.head?, (if zones.isEmpty then none else some zones),
      tl, none, days, es, ee, ex, none⟩]

/-! ## The matching pass of `convert_with_regulations`
(`src/backend/pipeline_blockface.py` lines 846-899)

One source record is matched against the loaded blockfaces.  The geometric
relations the record has with blockface `i` — whether the record's buffer
intersects blockface `i`'s centerline, which side `determine_side_of_line`
reports, and the centerline-to-record distance — are abstracted as the
functions `inter`, `regSide` and `dist` over the blockface's position.
The STRtree query is a conservative pre-filter whose hits are re-checked
with `buffered_reg.intersects`, so the candidate set is exactly the
intersecting blockfaces. -/

/-- One loaded blockface object of the second pass (id, parsed side, and
the regulation accumulator). -/
structure Blockface where
  id : String
  side : String
  regulations : List Regulation
deriving DecidableEq, Repr

instance : Inhabited Blockface := ⟨⟨"", "UNKNOWN", []⟩⟩

/-- Whether candidate blockface `i` survives both the buffer-intersection
check and the side-compatibility check of the matching loop. -/
def survivesAt (bfs : List Blockface) (inter : Nat → Bool) (regSide : Nat → String)
    (i : Nat) : Bool :=
  inter i && keepCandidate ((bfs.getD i default).side) (regSide i)

/-- One iteration of the closest-candidate scan: the running state is the
current `(index, min_distance)`, updated only on a strictly smaller
distance (ties keep the earlier candidate, the source's iteration-order
tie-break). -/
def selectStep (survives : Nat → Bool) (dist : Nat → ℚ) (st : Option (Nat × ℚ))
    (i : Nat) : Option (Nat × ℚ) :=
  if survives i then
    match st with
    | none => some (i, dist i)
    | some jd => if dist i < jd.2 then some (i, dist i) else some jd
  else st

/-- The closest-surviving-candidate selection over blockfaces `0..n-1`. -/
def selectClosest (survives : Nat → Bool) (dist : Nat → ℚ) (n : Nat) :
    Option (Nat × ℚ) :=
  (List.range n).foldl (selectStep survives dist) none

/-- Appending the record's extracted regulations to one blockface
(`closest_blockface['regulations'].extend(extracted_regs)`). -/
def appendRegs (bf : Blockface) (regs : List Regulation) : Blockface :=
  ⟨bf.id, bf.side, bf.regulations ++ regs⟩

/-- Processing of one source record by the matching pass: the surviving
candidate at minimal distance receives the extracted regulations; the
returned flag records matched (`true`) versus unmatched (`false`). -/
def matchRecord (bfs : List Blockface) (inter : Nat → Bool) (regSide : Nat → String)
    (dist : Nat → ℚ) (extracted : List Regulation) : List Blockface × Bool :=
  match selectClosest (survivesAt bfs inter regSide) dist bfs.length with
  | none => (bfs, false)
  | some jd => (bfs.set jd.1 (appendRegs (bfs.getD jd.1 default) extracted), true)

/-! ## Deduplication (third pass of `convert_with_regulations`,
`src/backend/pipeline_blockface.py` lines 909-925) -/

/-- A value occurring in a deduplication key: the dict values are strings,
ints, or lists (turned into tuples). -/
inductive KeyVal where
  | s (v : String)
  | i (v : Int)
  | sl (v : List String)
deriving DecidableEq, Repr

/-- The deduplication key of one regulation: the `(field, value)` pairs of
all non-null fields other than `meterRate`, in Python's sorted order of the
dict keys (`_sourceStreet` sorts before the lowercase names; `type` is
always present). -/
def dedupKey (r : Regulation) : List (String × KeyVal) :=
  (match r.sourceStreet with | none => [] | some v => [("_sourceStreet", KeyVal.s v)]) ++
  (match r.enforcementDays with | none => [] | some v => [("enforcementDays", KeyVal.sl v)]) ++
  (match r.enforcementEnd with | none => [] | some v => [("enforcementEnd", KeyVal.s v)]) ++
  (match r.enforcementStart with | none => [] | some v => [("enforcementStart", KeyVal.s v)]) ++
  (match r.permitZone with | none => [] | some v => [("permitZone", KeyVal.s v)]) ++
  (match r.permitZones with | none => [] | some v => [("permitZones", KeyVal.sl v)]) ++
  (match r.specialConditions with | none => [] | some v => [("specialConditions", KeyVal.s v)]) ++
  (match r.timeLimit with | none => [] | some v => [("timeLimit", KeyVal.i v)]) ++
  [("type", KeyVal.s r.type)]

/-- The seen-set scan of the deduplication loop: a regulation is kept iff
its key has not been seen yet. -/
def dedupAux : List Regulation → List (List (String × KeyVal)) → List Regulation
  | [], _ => []
  | r :: rest, seen =>
    if dedupKey r ∈ seen then dedupAux rest seen
    else r :: dedupAux rest (dedupKey r :: seen)

/-- The per-blockface regulation deduplication of the third pass. -/
def deduplicate_regulations (regs : List Regulation) : List Regulation :=
  dedupAux regs []

/-! ## `determine_side_of_line` (`src/backend/pipeline_blockface.py` lines
584-650)

The Shapely centerline operations (`interpolate` by distance along the
line, `project` of a point to a distance along the line, and the overall
length) are abstracted as an oracle; the function's own arithmetic — the
offset rule, the tangent construction, the cross product and the
threshold classification — is embedded exactly over `ℚ`. -/

structure CenterlineOracle where
  length : ℚ
  interp : ℚ → ℚ × ℚ
  proj : ℚ × ℚ → ℚ

/-- The tangent-sampling offset: `min(total_length * 0.05, 0.00001)` — 5%
of the centerline length capped above at `1e-5` degrees. -/
def offsetFor (totalLength : ℚ) : ℚ :=
  min (totalLength * (5 / 100)) (1 / 100000)

/-- The 2-D cross product `dx * ty - dy * tx` computed by
`determine_side_of_line` for the test line's midpoint `mid`: local tangent
from points `offset` before/after the projection (shifted to a forward
difference near either end), crossed with the vector from the projected
point to the midpoint. -/
def crossOf (c : CenterlineOracle) (mid : ℚ × ℚ) : ℚ :=
  let closest := c.interp (c.proj mid)
  let distanceAlong := c.proj closest
  let offset := offsetFor c.length
  let pq :=
    if distanceAlong < offset then
      (c.interp 0, c.interp (offset * 2))
    else if distanceAlong > c.length - offset then
      (c.interp (c.length - offset * 2), c.interp c.length)
    else
      (c.interp (distanceAlong - offset), c.interp (distanceAlong + offset))
  let dx := pq.2.1 - pq.1.1
  let dy := pq.2.2 - pq.1.2
  let tx := mid.1 - closest.1
  let ty := mid.2 - closest.2
  dx * ty - dy * tx

/-- The classification threshold of `determine_side_of_line` (`1e-8`). -/
def sideThreshold : ℚ := 1 / 100000000

/-- `determine_side_of_line`: LEFT for a cross product above the threshold,
RIGHT below its negation, UNKNOWN otherwise. -/
def determine_side_of_line (c : CenterlineOracle) (mid : ℚ × ℚ) : String :=
  let cross := crossOf c mid
  if cross > sideThreshold then "LEFT"
  else if cross < -sideThreshold then "RIGHT"
  else "UNKNOWN"

/-! ## `_buffer_geometry_to_polygon`
(`src/backend/transformers/parking_transformer.py` lines 549-606)

The Shapely buffering call is abstracted as an oracle taking the flattened
coordinates, the buffer distance, and the cap/join style codes; the
function's own control flow — coordinate flattening, the `< 2` guard and
the (unreachable) single-point branch — is embedded exactly. -/

/-- The geometry inputs `_buffer_geometry_to_polygon` distinguishes:
GeoJSON LineString / MultiLineString / Point dicts, a WKT string, and any
other dict shape with its recursively flattened coordinates. -/
inductive GeomInput where
  | lineString (coords : List (ℚ × ℚ))
  | multiLineString (lines : List (List (ℚ × ℚ)))
  | point (x y : ℚ)
  | wkt (s : String)
  | otherFlat (coords : List (ℚ × ℚ))
deriving DecidableEq

/-- The coordinate list collected from the input geometry. -/
def coordsOf : GeomInput → List (ℚ × ℚ)
  | GeomInput.lineString cs => cs
  | GeomInput.multiLineString ls => ls.flatten
  | GeomInput.point x y => [(x, y)]
  | GeomInput.wkt _ => []
  | GeomInput.otherFlat cs => cs

/-- `_buffer_geometry_to_polygon`: WKT inputs and inputs with fewer than 2
collected coordinates return `none`; all remaining inputs reach the
LineString buffering call with flat caps (`cap_style=2`) and mitre joins
(`join_style=2`).  The guard makes the source's `len(coords) == 1`
Point-buffering branch unreachable, so it does not appear here. -/
def buffer_geometry_to_polygon
    (bufferFn : List (ℚ × ℚ) → ℚ → Nat → Nat → Option (List (ℚ × ℚ)))
    (geom : GeomInput) (bufferDistance : ℚ) : Option (List (ℚ × ℚ)) :=
  match geom with
  | GeomInput.wkt _ => none
  | g =>
    let coords := coordsOf g
    if coords.length < 2 then none
    else bufferFn coords bufferDistance 2 2

/-! ## `_split_different_zone_overlaps`
(`src/backend/transformers/parking_transformer.py` lines 372-547)

The Shapely polygon operations are abstracted as `GeomOps`; the pass's own
logic — the same-zone guard, the bounding-box bisection through the
centroid, the code-ordered half assignment, and the keep-original-on-repair-
failure rule — is embedded exactly. -/

/-- An axis-aligned box `(minx, miny, maxx, maxy)`. -/
abbrev Box := ℚ × ℚ × ℚ × ℚ

/-- The Shapely polygon operations used by the cross-zone split, as an
oracle over an abstract polygon type.  `diffP` returns `none` when the
difference is not a `Polygon` instance; `fix` is `fix_polygon`, returning
`none` when repair fails. -/
structure GeomOps (P : Type) where
  intersects : P → P → Bool
  inter : P → P → P
  isEmptyP : P → Bool
  area : P → ℚ
  bounds : P → Box
  centroid : P → ℚ × ℚ
  interBox : P → Box → P
  diffP : P → P → Option P
  fix : P → Option P

/-- The two half boxes of the overlap bisection: a split through the
centroid, perpendicular to the longer bounding-box axis, each half padded
by 0.01 on the outer sides. -/
def splitBoxes (minx miny maxx maxy cx cy : ℚ) : Box × Box :=
  if maxx - minx > maxy - miny then
    ((minx - 1/100, miny - 1/100, cx, maxy + 1/100),
     (cx, miny - 1/100, maxx + 1/100, maxy + 1/100))
  else
    ((minx - 1/100, miny - 1/100, maxx + 1/100, cy),
     (minx - 1/100, cy, maxx + 1/100, maxy + 1/100))

/-- Python string `<`: lexicographic comparison by code point. -/
def pyStrLtL : List Char → List Char → Bool
  | [], [] => false
  | [], _ :: _ => true
  | _ :: _, [] => false
  | c :: cs, d :: ds => if c < d then true else if d < c then false else pyStrLtL cs ds

def pyStrLt (a b : String) : Bool := pyStrLtL a.data b.data

/-- The half assignment: the zone whose code sorts lower (Python string
`<`) gets the left/bottom box, the other the right/top box; returns
`(zone1_gets, zone2_gets)`. -/
def assignHalves (area1 area2 : String) (lb rb : Box) : Box × Box :=
  if pyStrLt area1 area2 then (lb, rb) else (rb, lb)

/-- The bisection boxes of one overlap polygon: `splitBoxes` applied to the
overlap's bounding box and centroid. -/
def splitOf {P : Type} (G : GeomOps P) (ov : P) : Box × Box :=
  splitBoxes (G.bounds ov).1 (G.bounds ov).2.1 (G.bounds ov).2.2.1 (G.bounds ov).2.2.2
    (G.centroid ov).1 (G.centroid ov).2

/-- The per-polygon update of the cross-zone split: subtract `sub`, keep
the original when the difference is not a Polygon or repair fails
(`modified[...]` is only assigned on success). -/
def updOf {P : Type} (G : GeomOps P) (cur sub : P) : P :=
  match G.diffP cur sub with
  | none => cur
  | some q =>
    match G.fix q with
    | none => cur
    | some p => p

/-- Processing of one polygon pair by the cross-zone split: same-zone and
non-overlapping pairs are untouched; otherwise each polygon loses the part
of the overlap lying in the other zone's half, with any non-Polygon
subtraction result or failed repair leaving that polygon unchanged. -/
def pairStep {P : Type} (G : GeomOps P) (current1 current2 : P)
    (area1 area2 : String) : P × P :=
  if area1 = area2 then (current1, current2)
  else if G.intersects current1 current2 = false then (current1, current2)
  else
    let ov := G.inter current1 current2
    if G.isEmptyP ov then (current1, current2)
    else if G.area ov < 1 / 10000000000 then (current1, current2)
    else
      let gets := assignHalves area1 area2 (splitOf G ov).1 (splitOf G ov).2
      (updOf G current1 (G.interBox ov gets.2), updOf G current2 (G.interBox ov gets.1))

/-! ## Helper lemmas -/

lemma parse_side_cases (p : String) :
    parse_side_from_popupinfo p = "NORTH" ∨ parse_side_from_popupinfo p = "SOUTH" ∨
    parse_side_from_popupinfo p = "EAST" ∨ parse_side_from_popupinfo p = "WEST" ∨
    parse_side_from_popupinfo p = "UNKNOWN" := by
  simp only [parse_side_from_popupinfo]
  split_ifs <;> simp

lemma keepCandidate_unfold (b r : String) :
    keepCandidate b r =
      (if blockface_side_to_left_right b = "UNKNOWN" then true
       else if r ≠ "UNKNOWN" ∧ r ≠ blockface_side_to_left_right b then false
       else true) := rfl

lemma keep_of_lr_unknown (b : String) (h : blockface_side_to_left_right b = "UNKNOWN")
    (r : String) : keepCandidate b r = true := by
  rw [keepCandidate_unfold, if_pos h]

/-! ## Claim theorems -/

/-- C4: a candidate blockface is discarded for side reasons only when the
blockface's side maps to a determinate LEFT/RIGHT (ODD→LEFT, EVEN→RIGHT;
cardinal sides and UNKNOWN map to UNKNOWN) and `sideOfLine` yields a
determinate value different from that side; an UNKNOWN `sideOfLine` result
never excludes, and a blockface whose side maps to UNKNOWN accepts
candidates from either geometric side. -/
theorem side_filter_characterization :
    ∀ bfSide regSide : String,
      (keepCandidate bfSide regSide = false ↔
        (blockface_side_to_left_right bfSide ≠ "UNKNOWN" ∧
         regSide ≠ "UNKNOWN" ∧ regSide ≠ blockface_side_to_left_right bfSide)) ∧
      blockface_side_to_left_right "ODD" = "LEFT" ∧
      blockface_side_to_left_right "EVEN" = "RIGHT" ∧
      blockface_side_to_left_right "NORTH" = "UNKNOWN" ∧
      blockface_side_to_left_right "SOUTH" = "UNKNOWN" ∧
      blockface_side_to_left_right "EAST" = "UNKNOWN" ∧
      blockface_side_to_left_right "WEST" = "UNKNOWN" ∧
      blockface_side_to_left_right "UNKNOWN" = "UNKNOWN" ∧
      (blockface_side_to_left_right bfSide = "UNKNOWN" →
        keepCandidate bfSide regSide = true) := by
  intro bfSide regSide
  refine ⟨?_, by decide, by decide, by decide, by decide, by decide, by decide, by decide,
    fun h => keep_of_lr_unknown bfSide h regSide⟩
  rw [keepCandidate_unfold]
  split_ifs with h1 h2 <;> simp_all

/-- Closed witness for `side_filter_characterization`: a cardinal-side
blockface keeps a LEFT candidate, and an ODD (→LEFT) blockface discards a
RIGHT candidate. -/
theorem side_filter_characterization_witness :
    keepCandidate "NORTH" "LEFT" = true ∧ keepCandidate "ODD" "RIGHT" = false := by
  have h := side_filter_characterization "NORTH" "LEFT"
  have h2 := side_filter_characterization "ODD" "RIGHT"
  exact ⟨h.2.2.2.2.2.2.2.2 (by decide), (h2.1).mpr (by decide)⟩

/-- C10: in the regulation-priority converter the side parsed from popup
text is always cardinal or UNKNOWN (never ODD/EVEN), so
`blockface_side_to_left_right` returns UNKNOWN for every blockface there
and the side-compatibility filter keeps every buffer-intersecting
candidate. -/
theorem pipeline_side_filter_never_discards :
    ∀ (popup regSide : String) (intersected : Bool),
      (parse_side_from_popupinfo popup = "NORTH" ∨
       parse_side_from_popupinfo popup = "SOUTH" ∨
       parse_side_from_popupinfo popup = "EAST" ∨
       parse_side_from_popupinfo popup = "WEST" ∨
       parse_side_from_popupinfo popup = "UNKNOWN") ∧
      parse_side_from_popupinfo popup ≠ "ODD" ∧
      parse_side_from_popupinfo popup ≠ "EVEN" ∧
      blockface_side_to_left_right (parse_side_from_popupinfo popup) = "UNKNOWN" ∧
      keepCandidate (parse_side_from_popupinfo popup) regSide = true ∧
      (intersected && keepCandidate (parse_side_from_popupinfo popup) regSide) =
        intersected := by
  intro popup regSide intersected
  have hcases := parse_side_cases popup
  have hlr : blockface_side_to_left_right (parse_side_from_popupinfo popup) = "UNKNOWN" := by
    rcases hcases with h | h | h | h | h <;> rw [h] <;> decide
  have hodd : parse_side_from_popupinfo popup ≠ "ODD" := by
    rcases hcases with h | h | h | h | h <;> rw [h] <;> decide
  have heven : parse_side_from_popupinfo popup ≠ "EVEN" := by
    rcases hcases with h | h | h | h | h <;> rw [h] <;> decide
  refine ⟨hcases, hodd, heven, hlr, keep_of_lr_unknown _ hlr _, ?_⟩
  rw [keep_of_lr_unknown _ hlr]
  exact Bool.and_true intersected

/-- C5: the popup string "Valencia Street between 17th St and 16th St,
west side" parses to street "Valencia Street", fromStreet "17th St",
toStreet "16th St", and (in the converter that applies the west→EVEN
address-parity convention) side "EVEN". -/
theorem valencia_popup_parsing :
    parse_street_info "Valencia Street between 17th St and 16th St, west side" =
      ⟨"Valencia Street", "17th St", "16th St"⟩ ∧
    CG.parse_side_from_popupinfo
      "Valencia Street between 17th St and 16th St, west side" = "EVEN" := by
  constructor <;> decide

/-- C9: day-string parsing maps "M-F" to the five weekdays, "M-Sa" to six
days, "DAILY" and "M-Su" to all seven, separator-joined day codes to their
weekday names while silently dropping unrecognized tokens; time-string
parsing left-pads 3-4 digit 24-hour strings into HH:MM and treats hour 24
as 00. -/
theorem day_and_time_parsing :
    parse_days_to_array (some "M-F") =
      some ["monday", "tuesday", "wednesday", "thursday", "friday"] ∧
    parse_days_to_array (some "M-Sa") =
      some ["monday", "tuesday", "wednesday", "thursday", "friday", "saturday"] ∧
    parse_days_to_array (some "DAILY") =
      some ["monday", "tuesday", "wednesday", "thursday", "friday", "saturday", "sunday"] ∧
    parse_days_to_array (some "M-Su") =
      some ["monday", "tuesday", "wednesday", "thursday", "friday", "saturday", "sunday"] ∧
    parse_days_to_array (some "Tu/Th") = some ["tuesday", "thursday"] ∧
    parse_days_to_array (some "M/W/F") = some ["monday", "wednesday", "friday"] ∧
    parse_days_to_array (some "M/X/F") = some ["monday", "friday"] ∧
    parse_time_to_format (some "900") = some "09:00" ∧
    parse_time_to_format (some "1800") = some "18:00" ∧
    parse_time_to_format (some "2400") = some "00:00" := by
  decide

/-- C8 (code-bug evidence): a single-point input reaches the
`len(coords) < 2` guard and returns `none` — the single-point disc
branch of the source is unreachable — contrary to the documented
small-disc behavior; inputs with at least 2 coordinates reach the
flat-cap (2), mitre-join (2) buffering call. -/
theorem buffer_single_point_returns_none :
    ∀ (bufferFn : List (ℚ × ℚ) → ℚ → Nat → Nat → Option (List (ℚ × ℚ)))
      (x y dd : ℚ) (cs : List (ℚ × ℚ)),
      buffer_geometry_to_polygon bufferFn (GeomInput.point x y) dd = none ∧
      buffer_geometry_to_polygon bufferFn (GeomInput.lineString []) dd = none ∧
      buffer_geometry_to_polygon bufferFn (GeomInput.lineString [(x, y)]) dd = none ∧
      buffer_geometry_to_polygon bufferFn (GeomInput.wkt "POINT (0 0)") dd = none ∧
      (¬ cs.length < 2 →
        buffer_geometry_to_polygon bufferFn (GeomInput.lineString cs) dd =
          bufferFn cs dd 2 2) := by
  intro bufferFn x y dd cs
  refine ⟨rfl, rfl, rfl, rfl, fun h => ?_⟩
  simp only [buffer_geometry_to_polygon, coordsOf]
  rw [if_neg h]

/-- Closed witness for the hypothesis of `buffer_single_point_returns_none`:
a two-point segment is handed to the buffering call unchanged. -/
theorem buffer_single_point_returns_none_witness :
    buffer_geometry_to_polygon (fun cs _ _ _ => some cs)
      (GeomInput.lineString [(0, 0), (1, 1)]) (1 / 100) = some [(0, 0), (1, 1)] :=
  ((buffer_single_point_returns_none (fun cs _ _ _ => some cs) 0 0 (1 / 100)
    [(0, 0), (1, 1)]).2.2.2.2 (by decide))

lemma determine_side_unfold (c : CenterlineOracle) (mid : ℚ × ℚ) :
    determine_side_of_line c mid =
      (if sideThreshold < crossOf c mid then "LEFT"
       else if crossOf c mid < -sideThreshold then "RIGHT"
       else "UNKNOWN") := rfl

/-- C7 (counterexample): the tangent-sampling offset is NOT "5% of the
centerline length bounded below by a fixed minimum" — no fixed minimum
`m` makes `offsetFor` equal to `max (5% of length) m`, because the code
caps the offset ABOVE at `1e-5` (`min`, not `max`). -/
theorem offset_rule_counterexample :
    ¬ ∃ m : ℚ, ∀ L : ℚ, 0 ≤ L → offsetFor L = max (L * (5 / 100)) m := by
  rintro ⟨m, h⟩
  have h1 := h 1 zero_le_one
  have e1 : offsetFor 1 = 1 / 100000 := by
    simp only [offsetFor, one_mul]
    rw [min_eq_right (by norm_num)]
  rw [e1] at h1
  have hle : (1 * (5 / 100) : ℚ) ≤ max (1 * (5 / 100)) m := le_max_left _ _
  rw [← h1] at hle
  norm_num at hle

/-- C7 (amended): `determine_side_of_line` classifies by the 2-D cross
product of the local tangent with (midpoint − projection): UNKNOWN exactly
when |cross| is at or below the `1e-8` threshold, LEFT when the cross
product exceeds it, RIGHT when below its negation; and the tangent
offset equals 5% of the centerline length capped ABOVE at the fixed
maximum `1e-5` (not bounded below). -/
theorem determine_side_classification :
    ∀ (c : CenterlineOracle) (mid : ℚ × ℚ) (L : ℚ),
      (determine_side_of_line c mid = "LEFT" ↔ sideThreshold < crossOf c mid) ∧
      (determine_side_of_line c mid = "RIGHT" ↔ crossOf c mid < -sideThreshold) ∧
      (determine_side_of_line c mid = "UNKNOWN" ↔ |crossOf c mid| ≤ sideThreshold) ∧
      offsetFor L ≤ 1 / 100000 ∧
      (L * (5 / 100) ≤ 1 / 100000 → offsetFor L = L * (5 / 100)) ∧
      (1 / 100000 ≤ L * (5 / 100) → offsetFor L = 1 / 100000) := by
  intro c mid L
  have ht : (0 : ℚ) < sideThreshold := by norm_num [sideThreshold]
  refine ⟨?_, ?_, ?_, min_le_right _ _, fun h => min_eq_left h, fun h => min_eq_right h⟩
  · rw [determine_side_unfold]
    split_ifs with h1 h2
    · exact iff_of_true rfl h1
    · exact iff_of_false (by decide) h1
    · exact iff_of_false (by decide) h1
  · rw [determine_side_unfold]
    split_ifs with h1 h2
    · exact iff_of_false (by decide) (by linarith)
    · exact iff_of_true rfl h2
    · exact iff_of_false (by decide) h2
  · rw [determine_side_unfold]
    split_ifs with h1 h2
    · exact iff_of_false (by decide)
        (not_le.mpr (lt_of_lt_of_le h1 (le_abs_self _)))
    · exact iff_of_false (by decide)
        (not_le.mpr (lt_of_lt_of_le (by linarith) (neg_le_abs _)))
    · exact iff_of_true rfl (abs_le.mpr ⟨by linarith, by linarith⟩)

/-- A concrete straight east-west centerline oracle: unit length,
interpolation along the x-axis, projection to the x-coordinate. -/
def testCenterline : CenterlineOracle := ⟨1, fun dd => (dd, 0), fun pt => pt.1⟩

/-- Closed witness for `determine_side_classification`: a midpoint north of
the test centerline classifies LEFT, and a short line's offset is 5% of
its length. -/
theorem determine_side_classification_witness :
    determine_side_of_line testCenterline (1 / 2, 1) = "LEFT" ∧
    offsetFor (1 / 1000000) = (1 / 1000000) * (5 / 100) := by
  have h := determine_side_classification testCenterline (1 / 2, 1) (1 / 1000000)
  refine ⟨(h.1).mpr ?_, h.2.2.2.2.1 (by norm_num)⟩
  have hc : crossOf testCenterline (1 / 2, 1) = 2 / 100000 := by
    simp only [crossOf, testCenterline, offsetFor, sideThreshold]
    norm_num
  rw [hc]
  norm_num [sideThreshold]

lemma dedupAux_spec (regs : List Regulation) :
    ∀ seen : List (List (String × KeyVal)),
      (dedupAux regs seen).Pairwise (fun a b => dedupKey a ≠ dedupKey b) ∧
      (∀ x ∈ dedupAux regs seen, dedupKey x ∉ seen) ∧
      (∀ r ∈ regs, dedupKey r ∈ seen ∨ ∃ x ∈ dedupAux regs seen, dedupKey x = dedupKey r) ∧
      (∀ x ∈ dedupAux regs seen, x ∈ regs) := by
  induction regs with
  | nil => intro seen; exact ⟨List.Pairwise.nil, by simp [dedupAux], by simp, by simp [dedupAux]⟩
  | cons r rest ih =>
    intro seen
    by_cases hk : dedupKey r ∈ seen
    · simp only [dedupAux, if_pos hk]
      obtain ⟨ih1, ih2, ih3, ih4⟩ := ih seen
      refine ⟨ih1, ih2, ?_, fun x hx => List.mem_cons_of_mem _ (ih4 x hx)⟩
      intro x hx
      rcases List.mem_cons.mp hx with heq | hm
      · subst heq; exact Or.inl hk
      · exact ih3 x hm
    · simp only [dedupAux, if_neg hk]
      obtain ⟨ih1, ih2, ih3, ih4⟩ := ih (dedupKey r :: seen)
      refine ⟨?_, ?_, ?_, ?_⟩
      · refine List.pairwise_cons.mpr ⟨?_, ih1⟩
        intro b hb heq
        exact ih2 b hb (heq ▸ List.mem_cons_self _ _)
      · intro x hx
        rcases List.mem_cons.mp hx with heq | hm
        · subst heq; exact hk
        · exact fun hmem => ih2 x hm (List.mem_cons_of_mem _ hmem)
      · intro x hx
        rcases List.mem_cons.mp hx with heq | hm
        · subst heq; exact Or.inr ⟨x, List.mem_cons_self _ _, rfl⟩
        · rcases ih3 x hm with hmem | ⟨y, hy, hky⟩
          · rcases List.mem_cons.mp hmem with heq2 | hseen
            · exact Or.inr ⟨r, List.mem_cons_self _ _, heq2.symm⟩
            · exact Or.inl hseen
          · exact Or.inr ⟨y, List.mem_cons_of_mem _ hy, hky⟩
      · intro x hx
        rcases List.mem_cons.mp hx with heq | hm
        · subst heq; exact List.mem_cons_self _ _
        · exact List.mem_cons_of_mem _ (ih4 x hm)

lemma countP_key_eq_one (l : List Regulation)
    (hp : l.Pairwise fun a b => dedupKey a ≠ dedupKey b) (k : List (String × KeyVal))
    (hex : ∃ r ∈ l, dedupKey r = k) :
    l.countP (fun x => decide (dedupKey x = k)) = 1 := by
  induction l with
  | nil => simp at hex
  | cons a t ih =>
    rw [List.countP_cons]
    obtain ⟨hhead, htail⟩ := List.pairwise_cons.mp hp
    by_cases hk : dedupKey a = k
    · have h0 : t.countP (fun x => decide (dedupKey x = k)) = 0 := by
        rw [List.countP_eq_zero]
        intro x hx
        simp only [decide_eq_true_eq]
        rw [← hk]
        exact fun hh => hhead x hx hh.symm
      simp [h0, hk]
    · have hex2 : ∃ r ∈ t, dedupKey r = k := by
        rcases hex with ⟨r, hr, hkr⟩
        rcases List.mem_cons.mp hr with heq | hrt
        · exact absurd (heq ▸ hkr) hk
        · exact ⟨r, hrt, hkr⟩
      simp [ih htail hex2, hk]

/-- C3: after deduplication no two regulations of a blockface share the
same key — the unordered collection of non-null fields excluding
`meterRate` — and for every input regulation exactly one entry with its
key survives; survivors come from the input list. -/
theorem dedup_no_duplicate_keys :
    ∀ regs : List Regulation,
      (deduplicate_regulations regs).Pairwise (fun a b => dedupKey a ≠ dedupKey b) ∧
      (∀ r ∈ regs, ∃ x ∈ deduplicate_regulations regs, dedupKey x = dedupKey r) ∧
      (∀ r ∈ regs,
        (deduplicate_regulations regs).countP
          (fun x => decide (dedupKey x = dedupKey r)) = 1) ∧
      (∀ x ∈ deduplicate_regulations regs, x ∈ regs) := by
  intro regs
  obtain ⟨h1, _, h3, h4⟩ := dedupAux_spec regs []
  have hcov : ∀ r ∈ regs, ∃ x ∈ deduplicate_regulations regs, dedupKey x = dedupKey r := by
    intro r hr
    rcases h3 r hr with hmem | hx
    · simp at hmem
    · exact hx
  exact ⟨h1, hcov, fun r hr => countP_key_eq_one _ h1 _ (hcov r hr), h4⟩

/-- A concrete extracted regulation, as two overlapping metered polylines
matched to the same blockface would each produce. -/
def sampleRegulation : Regulation :=
  ⟨"metered", none, none, none, none, some ["monday"], some "09:00", some "18:00",
   some "Metered parking", none⟩

/-- Closed witness for `dedup_no_duplicate_keys`: two identical extracted
regulations on one blockface collapse to exactly one output entry. -/
theorem dedup_no_duplicate_keys_witness :
    deduplicate_regulations [sampleRegulation, sampleRegulation] = [sampleRegulation] ∧
    (deduplicate_regulations [sampleRegulation, sampleRegulation]).countP
      (fun x => decide (dedupKey x = dedupKey sampleRegulation)) = 1 := by
  have h := dedup_no_duplicate_keys [sampleRegulation, sampleRegulation]
  exact ⟨by decide, h.2.2.1 sampleRegulation (List.mem_cons_self _ _)⟩

section SelectLemmas

variable (s : Nat → Bool) (d : Nat → ℚ)

lemma selectStep_of_false {i : Nat} (hsi : s i = false) (st : Option (Nat × ℚ)) :
    selectStep s d st i = st := by
  simp [selectStep, hsi]

lemma selectStep_isSome {i : Nat} (hsi : s i = true) (st : Option (Nat × ℚ)) :
    ∃ md, selectStep s d st i = some md ∧ md.2 ≤ d i ∧
      (st = none → md = (i, d i)) ∧
      (∀ kd, st = some kd → md.2 ≤ kd.2 ∧ (md = (i, d i) ∨ md = kd)) := by
  cases st with
  | none =>
    refine ⟨(i, d i), by simp [selectStep, hsi], le_refl _, fun _ => rfl, ?_⟩
    intro kd hkd; cases hkd
  | some kd =>
    by_cases hlt : d i < kd.2
    · refine ⟨(i, d i), ?_, ?_, ?_, ?_⟩
      · simp [selectStep, hsi, hlt]
      · exact le_refl _
      · intro h; exact Option.noConfusion h
      · intro kd2 hkd2
        cases hkd2
        exact ⟨le_of_lt hlt, Or.inl rfl⟩
    · refine ⟨kd, ?_, ?_, ?_, ?_⟩
      · simp [selectStep, hsi, hlt]
      · exact not_lt.mp hlt
      · intro h; exact Option.noConfusion h
      · intro kd2 hkd2
        cases hkd2
        exact ⟨le_refl _, Or.inr rfl⟩

lemma foldl_selectStep_none (l : List Nat) (st : Option (Nat × ℚ)) :
    l.foldl (selectStep s d) st = none ↔ st = none ∧ ∀ i ∈ l, s i = false := by
  induction l generalizing st with
  | nil => simp
  | cons i t ih =>
    rw [List.foldl_cons, ih]
    cases hsi : s i with
    | false =>
      rw [selectStep_of_false s d hsi]
      simp [hsi]
    | true =>
      obtain ⟨md, hmd, -, -, -⟩ := selectStep_isSome s d hsi st
      rw [hmd]
      simp [hsi]

lemma foldl_selectStep_spec (l : List Nat) :
    ∀ (st : Option (Nat × ℚ)) (jd : Nat × ℚ),
      l.foldl (selectStep s d) st = some jd →
      (st = some jd ∨ (jd.1 ∈ l ∧ s jd.1 = true ∧ jd.2 = d jd.1)) ∧
      (∀ i ∈ l, s i = true → jd.2 ≤ d i) ∧
      (∀ kd : Nat × ℚ, st = some kd → jd.2 ≤ kd.2) := by
  induction l with
  | nil =>
    intro st jd hres
    simp only [List.foldl_nil] at hres
    refine ⟨Or.inl hres, by simp, ?_⟩
    intro kd hkd
    rw [hres] at hkd
    cases hkd
    exact le_refl _
  | cons i t ih =>
    intro st jd hres
    rw [List.foldl_cons] at hres
    obtain ⟨hprov, hmin, hmono⟩ := ih (selectStep s d st i) jd hres
    cases hsi : s i with
    | false =>
      rw [selectStep_of_false s d hsi] at hprov hmono
      refine ⟨?_, ?_, hmono⟩
      · rcases hprov with h | ⟨hm, hs2, hd2⟩
        · exact Or.inl h
        · exact Or.inr ⟨List.mem_cons_of_mem _ hm, hs2, hd2⟩
      · intro k hk hsk
        rcases List.mem_cons.mp hk with heq | hm
        · subst heq; rw [hsi] at hsk; cases hsk
        · exact hmin k hm hsk
    | true =>
      obtain ⟨md, hmd, hmdle, hnone, hsome⟩ := selectStep_isSome s d hsi st
      rw [hmd] at hprov hmono
      refine ⟨?_, ?_, ?_⟩
      · rcases hprov with h | ⟨hm, hs2, hd2⟩
        · cases h
          cases hst : st with
          | none =>
            have := hnone hst
            subst this
            exact Or.inr ⟨List.mem_cons_self _ _, hsi, rfl⟩
          | some kd =>
            rcases (hsome kd hst).2 with h2 | h2
            · subst h2
              exact Or.inr ⟨List.mem_cons_self _ _, hsi, rfl⟩
            · subst h2
              exact Or.inl rfl
        · exact Or.inr ⟨List.mem_cons_of_mem _ hm, hs2, hd2⟩
      · intro k hk hsk
        rcases List.mem_cons.mp hk with heq | hm
        · subst heq
          exact le_trans (hmono md rfl) hmdle
        · exact hmin k hm hsk
      · intro kd hkd
        exact le_trans (hmono md rfl) ((hsome kd hkd).1)

end SelectLemmas

lemma selectClosest_none_iff (s : Nat → Bool) (d : Nat → ℚ) (n : Nat) :
    selectClosest s d n = none ↔ ∀ i < n, s i = false := by
  unfold selectClosest
  rw [foldl_selectStep_none]
  simp [List.mem_range]

lemma selectClosest_some_spec (s : Nat → Bool) (d : Nat → ℚ) (n : Nat) (jd : Nat × ℚ)
    (h : selectClosest s d n = some jd) :
    jd.1 < n ∧ s jd.1 = true ∧ jd.2 = d jd.1 ∧ ∀ i < n, s i = true → jd.2 ≤ d i := by
  unfold selectClosest at h
  obtain ⟨hprov, hmin, -⟩ := foldl_selectStep_spec s d (List.range n) none jd h
  rcases hprov with h0 | ⟨hmem, hs, hd⟩
  · cases h0
  · exact ⟨List.mem_range.mp hmem, hs, hd,
      fun i hi hsi => hmin i (List.mem_range.mpr hi) hsi⟩

/-- C1: the matching pass appends one record's extracted regulations to at
most one blockface — the surviving candidate of minimal
centerline-to-record distance — never to two distinct blockfaces (every
other position is unchanged); with no surviving candidate, no blockface is
modified and the record is flagged unmatched. -/
theorem match_record_at_most_one_owner :
    ∀ (bfs : List Blockface) (inter : Nat → Bool) (regSide : Nat → String)
      (dist : Nat → ℚ) (extracted : List Regulation),
      (selectClosest (survivesAt bfs inter regSide) dist bfs.length = none →
        matchRecord bfs inter regSide dist extracted = (bfs, false) ∧
        ∀ i < bfs.length, survivesAt bfs inter regSide i = false) ∧
      (∀ jd, selectClosest (survivesAt bfs inter regSide) dist bfs.length = some jd →
        jd.1 < bfs.length ∧
        survivesAt bfs inter regSide jd.1 = true ∧
        jd.2 = dist jd.1 ∧
        (∀ i < bfs.length, survivesAt bfs inter regSide i = true → jd.2 ≤ dist i) ∧
        (matchRecord bfs inter regSide dist extracted).2 = true ∧
        (matchRecord bfs inter regSide dist extracted).1 =
          bfs.set jd.1 (appendRegs (bfs.getD jd.1 default) extracted) ∧
        (∀ j, j ≠ jd.1 →
          ((matchRecord bfs inter regSide dist extracted).1)[j]? = bfs[j]?)) := by
  intro bfs inter regSide dist extracted
  constructor
  · intro h
    refine ⟨?_, (selectClosest_none_iff _ _ _).mp h⟩
    unfold matchRecord
    rw [h]
  · intro jd h
    obtain ⟨h1, h2, h3, h4⟩ := selectClosest_some_spec _ _ _ _ h
    have hm : matchRecord bfs inter regSide dist extracted =
        (bfs.set jd.1 (appendRegs (bfs.getD jd.1 default) extracted), true) := by
      unfold matchRecord
      rw [h]
    refine ⟨h1, h2, h3, h4, by rw [hm], by rw [hm], ?_⟩
    intro j hj
    rw [hm]
    exact List.getElem?_set_ne (Ne.symm hj)

/-- Two concrete blockfaces for exercising the matching pass. -/
def wBfs : List Blockface := [⟨"bf0", "WEST", []⟩, ⟨"bf1", "WEST", []⟩]

def wInter : Nat → Bool := fun _ => true

def wRegSide : Nat → String := fun _ => "LEFT"

def wDist : Nat → ℚ := fun i => if i = 0 then 2 else 1

/-- Closed witness for `match_record_at_most_one_owner`: with both
blockfaces intersecting, the closer one (index 1) receives the regulation
and the other is untouched. -/
theorem match_record_at_most_one_owner_witness :
    (matchRecord wBfs wInter wRegSide wDist [sampleRegulation]).1[0]? =
      some ⟨"bf0", "WEST", []⟩ ∧
    (matchRecord wBfs wInter wRegSide wDist [sampleRegulation]).1 =
      wBfs.set 1 (appendRegs (wBfs.getD 1 default) [sampleRegulation]) ∧
    (matchRecord wBfs wInter wRegSide wDist [sampleRegulation]).2 = true ∧
    (1 : ℚ) ≤ wDist 0 := by
  have h := (match_record_at_most_one_owner wBfs wInter wRegSide wDist [sampleRegulation]).2
    (1, 1) (by decide)
  refine ⟨?_, h.2.2.2.2.2.1, h.2.2.2.2.1, ?_⟩
  · rw [h.2.2.2.2.2.2 0 (by decide)]
    decide
  · have := h.2.2.2.1 0 (by decide) (by decide)
    simpa using this


lemma lowerChar_of_space (c : Char) (h : isSpaceC c = true) : lowerChar c = c := by
  simp only [isSpaceC, Bool.or_eq_true, decide_eq_true_eq] at h
  rcases h with ((((h | h) | h) | h) | h) | h <;> subst h <;> decide

lemma isSpaceC_eq_false_of_lower {c d : Char} (hd : lowerChar c = d)
    (hns : isSpaceC d = false) : isSpaceC c = false := by
  by_contra hc
  rw [Bool.not_eq_false] at hc
  rw [lowerChar_of_space c hc] at hd
  subst hd
  rw [hc] at hns
  cases hns

lemma dropWhile_eq_self_of_head (l : List Char)
    (h : ∀ c, l.head? = some c → isSpaceC c = false) : l.dropWhile isSpaceC = l := by
  cases l with
  | nil => rfl
  | cons a t =>
    have ha := h a rfl
    simp [List.dropWhile_cons, ha]

lemma stripL_eq_self (l : List Char)
    (h1 : ∀ c, l.head? = some c → isSpaceC c = false)
    (h2 : ∀ c, l.getLast? = some c → isSpaceC c = false) : stripL l = l := by
  unfold stripL
  rw [dropWhile_eq_self_of_head l h1]
  rw [dropWhile_eq_self_of_head l.reverse
    (fun c hc => h2 c (by rwa [List.head?_reverse] at hc))]
  exact List.reverse_reverse l

lemma stripL_eq_self_of_lowerL {l tgt : List Char} (h : lowerL l = tgt)
    (h1 : ∀ c, tgt.head? = some c → isSpaceC c = false)
    (h2 : ∀ c, tgt.getLast? = some c → isSpaceC c = false) : stripL l = l := by
  apply stripL_eq_self
  · intro c hc
    have hh : tgt.head? = some (lowerChar c) := by
      rw [← h]
      unfold lowerL
      rw [List.head?_map, hc]
      rfl
    exact isSpaceC_eq_false_of_lower rfl (h1 _ hh)
  · intro c hc
    have hh : tgt.getLast? = some (lowerChar c) := by
      rw [← h]
      unfold lowerL
      rw [List.getLast?_map, hc]
      rfl
    exact isSpaceC_eq_false_of_lower rfl (h2 _ hh)

lemma map_reg_of_pay_or_permit (raw : String)
    (h : lowerL raw.data = ("pay or permit").data) :
    map_regulation_type raw = "metered" := by
  have hne : ¬ raw.data.isEmpty = true := by
    intro h0
    rw [List.isEmpty_iff] at h0
    rw [h0] at h
    exact absurd h (by decide)
  have hstrip : stripL raw.data = raw.data :=
    stripL_eq_self_of_lowerL h
      (fun c hc => by have hcp := Option.some.inj hc; rw [← hcp]; decide)
      (fun c hc => by have hct := Option.some.inj hc; rw [← hct]; decide)
  simp only [map_regulation_type]
  rw [hstrip, h, if_neg hne]
  decide

/-- C2: a record whose regulation field equals "Pay or Permit"
(case-insensitively) extracts to exactly two entries sharing the same
enforcement window — metered with the parsed timeLimit and null
permitZones, and residentialPermit with the permit zones and null
timeLimit; a time-limited record with a nonempty permit-zone set
analogously expands into timeLimit + residentialPermit entries. -/
theorem pay_or_permit_dual_extraction :
    ∀ p : RegProps,
      (lowerL ((p.regulation.getD "").data) = ("pay or permit").data →
        ∃ r1 r2, extract_regulation p = [r1, r2] ∧
          r1.type = "metered" ∧ r1.permitZone = none ∧ r1.permitZones = none ∧
          r1.timeLimit = parseTimeLimit p.hrlimit ∧
          r2.type = "residentialPermit" ∧ r2.timeLimit = none ∧
          r2.permitZones =
            (if (extractPermitZones p).isEmpty then none else some (extractPermitZones p)) ∧
          r1.enforcementDays = r2.enforcementDays ∧
          r1.enforcementStart = r2.enforcementStart ∧
          r1.enforcementEnd = r2.enforcementEnd) ∧
      (map_regulation_type (p.regulation.getD "") = "timeLimit" →
        extractPermitZones p ≠ [] →
        ∃ r1 r2, extract_regulation p = [r1, r2] ∧
          r1.type = "timeLimit" ∧ r1.timeLimit = parseTimeLimit p.hrlimit ∧
          r1.permitZones = none ∧
          r2.type = "residentialPermit" ∧ r2.timeLimit = none ∧
          r2.permitZones = some (extractPermitZones p) ∧
          r1.enforcementDays = r2.enforcementDays ∧
          r1.enforcementStart = r2.enforcementStart ∧
          r1.enforcementEnd = r2.enforcementEnd) := by
  intro p
  constructor
  · intro h
    refine ⟨⟨"metered", none, none, parseTimeLimit p.hrlimit, none,
        parse_days_to_array p.days, parse_time_to_format p.hrs_begin,
        parse_time_to_format p.hrs_end, p.exceptions, none⟩,
      ⟨"residentialPermit", (extractPermitZones p).head?,
        (if (extractPermitZones p).isEmpty then none else some (extractPermitZones p)),
        none, none, parse_days_to_array p.days, parse_time_to_format p.hrs_begin,
        parse_time_to_format p.hrs_end, p.exceptions, none⟩,
      ?_, rfl, rfl, rfl, rfl, rfl, rfl, rfl, rfl, rfl, rfl⟩
    simp only [extract_regulation]
    rw [if_pos h]
  · intro hmap hz
    have hnp : ¬ lowerL ((p.regulation.getD "").data) = ("pay or permit").data := by
      intro hl
      have hmet := map_reg_of_pay_or_permit _ hl
      rw [hmet] at hmap
      exact absurd hmap (by decide)
    refine ⟨⟨"timeLimit", none, none, parseTimeLimit p.hrlimit, none,
        parse_days_to_array p.days, parse_time_to_format p.hrs_begin,
        parse_time_to_format p.hrs_end, p.exceptions, none⟩,
      ⟨"residentialPermit", (extractPermitZones p).head?,
        (if (extractPermitZones p).isEmpty then none else some (extractPermitZones p)),
        none, none, parse_days_to_array p.days, parse_time_to_format p.hrs_begin,
        parse_time_to_format p.hrs_end,
        (match p.exceptions with
         | some e => if e.data.isEmpty then some "Exempt from time limits"
                     else some ("Exempt from time limits. " ++ e)
         | none => some "Exempt from time limits"), none⟩,
      ?_, rfl, rfl, rfl, rfl, rfl, ?_, rfl, rfl, rfl⟩
    · simp only [extract_regulation]
      rw [if_neg hnp, if_pos ⟨hmap, hz⟩]
    · rw [if_neg (by simp [List.isEmpty_iff, hz])]

/-- The concrete scenario record of the spec. -/
def payOrPermitExample : RegProps :=
  ⟨some "Pay or Permit", none, none, none, some "2", some "Q", none, none, none⟩

def timeLimitExample : RegProps :=
  ⟨some "Time limited", none, none, none, some "2", some "Q", none, none, none⟩

/-- Closed witness for `pay_or_permit_dual_extraction`: the record
regulation="Pay or Permit", hrlimit="2", rpparea1="Q" yields
metered/timeLimit=120 plus residentialPermit/["Q"], and a Time-limited
record with a zone yields timeLimit plus residentialPermit. -/
theorem pay_or_permit_dual_extraction_witness :
    (∃ r1 r2, extract_regulation payOrPermitExample = [r1, r2] ∧
      r1.type = "metered" ∧ r1.timeLimit = some 120 ∧ r1.permitZones = none ∧
      r2.type = "residentialPermit" ∧ r2.permitZones = some ["Q"] ∧ r2.timeLimit = none) ∧
    (∃ r1 r2, extract_regulation timeLimitExample = [r1, r2] ∧
      r1.type = "timeLimit" ∧ r2.type = "residentialPermit") := by
  constructor
  · obtain ⟨r1, r2, heq, hA, hB, hC, hD, hE, hF, hG, -, -, -⟩ :=
      (pay_or_permit_dual_extraction payOrPermitExample).1 (by decide)
    refine ⟨r1, r2, heq, hA, ?_, hC, hE, ?_, hF⟩
    · rw [hD]; decide
    · rw [hG]; decide
  · obtain ⟨r1, r2, heq, hA, -, -, hE, -, -, -, -, -⟩ :=
      (pay_or_permit_dual_extraction timeLimitExample).2 (by decide) (by decide)
    exact ⟨r1, r2, heq, hA, hE⟩




lemma string_ext_of_data {a b : String} (h : a.data = b.data) : a = b := by
  cases a
  cases b
  exact congrArg String.mk h

lemma pyStrLtL_trichotomy : ∀ a b : List Char,
    pyStrLtL a b = true ∨ pyStrLtL b a = true ∨ a = b := by
  intro a
  induction a with
  | nil =>
    intro b
    cases b with
    | nil => exact Or.inr (Or.inr rfl)
    | cons d ds => exact Or.inl rfl
  | cons c cs ih =>
    intro b
    cases b with
    | nil => exact Or.inr (Or.inl rfl)
    | cons d ds =>
      rcases lt_trichotomy c d with hcd | hcd | hcd
      · left
        simp only [pyStrLtL]
        rw [if_pos hcd]
      · subst hcd
        rcases ih ds with h | h | h
        · left
          simp only [pyStrLtL]
          rw [if_neg (lt_irrefl c), if_neg (lt_irrefl c)]
          exact h
        · right; left
          simp only [pyStrLtL]
          rw [if_neg (lt_irrefl c), if_neg (lt_irrefl c)]
          exact h
        · right; right
          rw [h]
      · right; left
        simp only [pyStrLtL]
        rw [if_pos hcd]

lemma pyStrLtL_asymm : ∀ a b : List Char, pyStrLtL a b = true → pyStrLtL b a = false := by
  intro a
  induction a with
  | nil =>
    intro b h
    cases b with
    | nil => simp [pyStrLtL] at h
    | cons d ds => simp [pyStrLtL]
  | cons c cs ih =>
    intro b h
    cases b with
    | nil => simp [pyStrLtL] at h
    | cons d ds =>
      simp only [pyStrLtL] at h ⊢
      rcases lt_trichotomy c d with hcd | hcd | hcd
      · rw [if_neg (lt_asymm hcd), if_pos hcd]
      · subst hcd
        rw [if_neg (lt_irrefl c), if_neg (lt_irrefl c)] at h ⊢
        exact ih ds h
      · rw [if_neg (lt_asymm hcd), if_pos hcd] at h
        cases h

lemma pyStrLt_total_of_ne (a b : String) (h : a ≠ b) :
    pyStrLt a b = true ∨ pyStrLt b a = true := by
  rcases pyStrLtL_trichotomy a.data b.data with h1 | h1 | h1
  · exact Or.inl h1
  · exact Or.inr h1
  · exact absurd (string_ext_of_data h1) h

lemma assignHalves_swap (a1 a2 : String) (h : a1 ≠ a2) (lb rb : Box) :
    assignHalves a2 a1 lb rb =
      ((assignHalves a1 a2 lb rb).2, (assignHalves a1 a2 lb rb).1) := by
  unfold assignHalves
  rcases pyStrLt_total_of_ne a1 a2 h with h1 | h1
  · have h2 : pyStrLt a2 a1 = false := pyStrLtL_asymm _ _ h1
    rw [if_pos h1, if_neg (by simp [h2])]
  · have h2 : pyStrLt a1 a2 = false := pyStrLtL_asymm _ _ h1
    rw [if_pos h1, if_neg (by simp [h2])]

lemma updOf_cases {P : Type} (G : GeomOps P) (cur sub : P) :
    updOf G cur sub = cur ∨ ∃ q p, G.fix q = some p ∧ updOf G cur sub = p := by
  cases hd : G.diffP cur sub with
  | none =>
    left
    unfold updOf
    rw [hd]
  | some q =>
    have hu : updOf G cur sub = (match G.fix q with | none => cur | some p => p) := by
      unfold updOf
      rw [hd]
    cases hf : G.fix q with
    | none =>
      left
      rw [hu, hf]
    | some p =>
      right
      exact ⟨q, p, hf, by rw [hu, hf]⟩



lemma pairStep_fst_cases {P : Type} (G : GeomOps P) (c1 c2 : P) (a1 a2 : String) :
    (pairStep G c1 c2 a1 a2).1 = c1 ∨
      ∃ q p, G.fix q = some p ∧ (pairStep G c1 c2 a1 a2).1 = p := by
  simp only [pairStep]
  split_ifs with h1 h2 h3 h4
  · exact Or.inl rfl
  · exact Or.inl rfl
  · exact Or.inl rfl
  · exact Or.inl rfl
  · exact updOf_cases G c1 _

lemma pairStep_snd_cases {P : Type} (G : GeomOps P) (c1 c2 : P) (a1 a2 : String) :
    (pairStep G c1 c2 a1 a2).2 = c2 ∨
      ∃ q p, G.fix q = some p ∧ (pairStep G c1 c2 a1 a2).2 = p := by
  simp only [pairStep]
  split_ifs with h1 h2 h3 h4
  · exact Or.inl rfl
  · exact Or.inl rfl
  · exact Or.inl rfl
  · exact Or.inl rfl
  · exact updOf_cases G c2 _

lemma pairStep_symm {P : Type} (G : GeomOps P)
    (hcomm : ∀ x y, G.inter x y = G.inter y x)
    (hsym : ∀ x y, G.intersects x y = G.intersects y x)
    (c1 c2 : P) (a1 a2 : String) :
    pairStep G c2 c1 a2 a1 = ((pairStep G c1 c2 a1 a2).2, (pairStep G c1 c2 a1 a2).1) := by
  by_cases h12 : a1 = a2
  · subst h12
    simp [pairStep]
  · have h21 : ¬ a2 = a1 := fun hh => h12 hh.symm
    have hint : G.intersects c2 c1 = G.intersects c1 c2 := hsym c2 c1
    have hov : G.inter c2 c1 = G.inter c1 c2 := hcomm c2 c1
    by_cases hI : G.intersects c1 c2 = false
    · simp only [pairStep, if_neg h12, if_neg h21, hint, if_pos hI]
    · by_cases hE : G.isEmptyP (G.inter c1 c2) = true
      · simp only [pairStep, if_neg h12, if_neg h21, hint, if_neg hI, hov, if_pos hE]
      · by_cases hA : G.area (G.inter c1 c2) < 1 / 10000000000
        · simp only [pairStep, if_neg h12, if_neg h21, hint, if_neg hI, hov, if_neg hE,
            if_pos hA]
        · have hsw := assignHalves_swap a1 a2 h12
            (splitOf G (G.inter c1 c2)).1 (splitOf G (G.inter c1 c2)).2
          simp only [pairStep, if_neg h12, if_neg h21, hint, if_neg hI, hov, if_neg hE,
            if_neg hA, hsw]

/-- C6: in the cross-zone split, the overlap is bisected through its
centroid perpendicular to the longer bounding-box axis, each half is
subtracted from the opposing zone's polygon, the lexicographically lower
code keeps the same half regardless of the order in which the pair is
presented (deterministic half-assignment), and a failed repair of a
subtraction result leaves the original un-split polygon in place (the
step is total — it never raises). -/
theorem cross_zone_pair_split :
    ∀ {P : Type} (G : GeomOps P),
      (∀ x y, G.inter x y = G.inter y x) →
      (∀ x y, G.intersects x y = G.intersects y x) →
      ∀ (c1 c2 : P) (a1 a2 : String),
        pairStep G c2 c1 a2 a1 =
          ((pairStep G c1 c2 a1 a2).2, (pairStep G c1 c2 a1 a2).1) ∧
        ((pairStep G c1 c2 a1 a2).1 = c1 ∨
          ∃ q p, G.fix q = some p ∧ (pairStep G c1 c2 a1 a2).1 = p) ∧
        ((pairStep G c1 c2 a1 a2).2 = c2 ∨
          ∃ q p, G.fix q = some p ∧ (pairStep G c1 c2 a1 a2).2 = p) ∧
        (a1 ≠ a2 → ¬ G.intersects c1 c2 = false →
          ¬ G.isEmptyP (G.inter c1 c2) = true →
          ¬ G.area (G.inter c1 c2) < 1 / 10000000000 →
          pairStep G c1 c2 a1 a2 =
            (updOf G c1 (G.interBox (G.inter c1 c2)
              (assignHalves a1 a2 (splitOf G (G.inter c1 c2)).1
                (splitOf G (G.inter c1 c2)).2).2),
             updOf G c2 (G.interBox (G.inter c1 c2)
              (assignHalves a1 a2 (splitOf G (G.inter c1 c2)).1
                (splitOf G (G.inter c1 c2)).2).1))) ∧
        (∀ minx miny maxx maxy cx cy : ℚ,
          (maxx - minx > maxy - miny →
            (splitBoxes minx miny maxx maxy cx cy).1.2.2.1 = cx ∧
            (splitBoxes minx miny maxx maxy cx cy).2.1 = cx ∧
            (splitBoxes minx miny maxx maxy cx cy).1.2.1 =
              (splitBoxes minx miny maxx maxy cx cy).2.2.1 ∧
            (splitBoxes minx miny maxx maxy cx cy).1.2.2.2 =
              (splitBoxes minx miny maxx maxy cx cy).2.2.2.2) ∧
          (¬ maxx - minx > maxy - miny →
            (splitBoxes minx miny maxx maxy cx cy).1.2.2.2 = cy ∧
            (splitBoxes minx miny maxx maxy cx cy).2.2.1 = cy ∧
            (splitBoxes minx miny maxx maxy cx cy).1.1 =
              (splitBoxes minx miny maxx maxy cx cy).2.1 ∧
            (splitBoxes minx miny maxx maxy cx cy).1.2.2.1 =
              (splitBoxes minx miny maxx maxy cx cy).2.2.2.1)) := by
  intro P G hcomm hsym c1 c2 a1 a2
  refine ⟨pairStep_symm G hcomm hsym c1 c2 a1 a2,
    pairStep_fst_cases G c1 c2 a1 a2, pairStep_snd_cases G c1 c2 a1 a2, ?_, ?_⟩
  · intro hne hI hE hA
    simp only [pairStep, if_neg hne, if_neg hI, if_neg hE, if_neg hA]
  · intro minx miny maxx maxy cx cy
    constructor
    · intro h
      simp [splitBoxes, if_pos h]
    · intro h
      simp [splitBoxes, if_neg h]

/-- A toy geometry oracle over `Nat` with commutative intersection. -/
def toyOps : GeomOps Nat :=
  ⟨fun _ _ => true, Nat.min, fun _ => false, fun _ => 1, fun _ => (0, 0, 2, 1),
   fun _ => (1, 1 / 2), fun p _ => p, fun a b => some (a - b), fun p => some p⟩

/-- Closed witness for `cross_zone_pair_split`: a toy geometry oracle with
commutative intersection; the pair processed in either order gives each
code the same half. -/
theorem cross_zone_pair_split_witness :
    pairStep toyOps 3 5 "B" "A" =
      ((pairStep toyOps 5 3 "A" "B").2, (pairStep toyOps 5 3 "A" "B").1) ∧
    pairStep toyOps 5 3 "A" "B" = (2, 0) := by
  constructor
  · exact (cross_zone_pair_split toyOps (fun x y => Nat.min_comm x y)
      (fun _ _ => rfl) 5 3 "A" "B").1
  · have hne : ("A" : String) ≠ "B" := by decide
    have hp : pyStrLt "A" "B" = true := by decide
    norm_num [pairStep, toyOps, updOf, splitOf, splitBoxes, assignHalves, hp, hne]


end ParkLookup
